import Mathlib

/-!
Verification of the Twilio call-bridging websocket handler
(`tests/websocket_server/twilio_call_server.py`, function `handle_call`).

The handler keeps two per-session lists of decoded sample chunks
(`inbound_buffer`, `outbound_buffer`).  For each incoming websocket message it
JSON-decodes the event; for a `media` event it base64-decodes the payload,
μ-law-decodes it to 16-bit linear samples (`audioop.ulaw2lin(audio_data, 2)`,
viewed through `np.frombuffer(..., dtype=np.int16)`), appends the sample array
to the buffer named by the `track` field, runs the pairing loop
(`while inbound_buffer and outbound_buffer`), and then the per-event zero-fill
flush (`if inbound_buffer and not outbound_buffer: ... elif ...`), writing each
stereo chunk to the sounddevice output stream.  All other events are only
logged.  Decoding errors are logged and the frame skipped; any other exception
raised while processing a message (including a failing `stream.write`) is
caught by the per-message `except Exception` handler, logged, and the event
loop continues with the next message.

The embedding below models the handler state as explicit data: buffers are
lists of sample chunks, the audio sink is the list of stereo chunks written
(each chunk a list of (left, right) sample pairs, left = inbound, matching
`np.column_stack((inbound_chunk, outbound_chunk))`), and instrumentation
counters record pairing-loop steps, bytes consumed by the pairing loop,
samples silently discarded by the min-length truncation, and buffer appends.
Logging is I/O and is not modelled.  `base64.b64decode` is modelled abstractly
by the event carrying its outcome (`Except Unit (List Nat)`): the claims
depend only on whether it raises and on the bytes it returns.
-/

namespace TwilioServer

/-- The function `st_ulaw2linear16` of `audioop`: decode one μ-law byte to a 16-bit linear
sample.  The C source complements the byte, extracts the quantization bits
(`& 0xf`, shifted left 3, plus the bias 0x84), shifts by the segment number
(`(& 0x70) >> 4`), and applies the sign bit (`& 0x80`).  Written here in
plain arithmetic on `Nat` (the byte) with the final signed result in `Int`. -/
def ulaw2linear16 (u : Nat) : Int :=
  let uc := 255 - (u % 256)
  let t0 := (uc % 16) * 8 + 132
  let t1 := t0 * 2 ^ (uc / 16 % 8)
  if 128 ≤ uc then (132 : Int) - (t1 : Int) else (t1 : Int) - 132

/-- Model of `audioop.ulaw2lin(audio_data, 2)` followed by
`np.frombuffer(decoded_pcm, dtype=np.int16)`: one 16-bit sample per input
byte.  (`ulaw2lin` with width 2 is total: the `except audioop.error` branch
at lines 56-58 of the source is unreachable for byte input.) -/
def ulawDecode (bs : List Nat) : List Int :=
  bs.map ulaw2linear16

/-- Model of `np.column_stack((a, b))` for two equal-length 1-D sample arrays: the
stereo frame list, column 0 (= left channel) from `a`, column 1 (= right)
from `b`.  The handler only applies it to equal-length chunks (it truncates
both to the min length first). -/
def column_stack (a b : List Int) : List (Int × Int) :=
  List.zip a b

/-- The row-major memory layout of the `(n, 2)` int16 array handed to
`stream.write`: samples alternate left, right, left, right, ... -/
def interleaveStereo (c : List (Int × Int)) : List Int :=
  c.flatMap (fun p => [p.1, p.2])

/-- Specification-side description of `StereoChannels`: interleave the
inbound chunk as the left channel and the outbound chunk as the right
channel, sample-for-sample, channels alternating. -/
def interleaveSpec : List Int → List Int → List Int
  | a :: as, b :: bs => a :: b :: interleaveSpec as bs
  | _, _ => []

deriving instance DecidableEq for Except

/-- One websocket message, after JSON parsing.  `media track payload` is a
media event; `payload` carries the outcome of `base64.b64decode` (`.error ()`
when it raises, `.ok bs` when it returns the byte string `bs`).  `other e` is
any non-media event (`start`, `stop`, `mark`, ...), which the handler only
logs (lines 105-108). -/
inductive TwilioEvent where
  | media (track : String) (payload : Except Unit (List Nat))
  | other (event : String)
deriving Repr, DecidableEq

/-- The per-connection state of `handle_call`, with instrumentation.
`inbound` and `outbound` are the two chunk lists; `writes` is the audio sink
(the stereo chunks written, in order); `mixSteps` counts iterations of the
pairing loop (lines 76-89); `consumedIn`/`consumedOut` count the bytes
(2 per sample) popped from each buffer by the pairing loop; `dropped` counts
the samples discarded by the min-length truncation (lines 82-84);
`appendsIn`/`appendsOut` count the `buffer.append(...)` calls. -/
structure SessionState where
  inbound : List (List Int)
  outbound : List (List Int)
  writes : List (List (Int × Int))
  mixSteps : Nat
  consumedIn : Nat
  consumedOut : Nat
  dropped : Nat
  appendsIn : Nat
  appendsOut : Nat
deriving Repr, DecidableEq

/-- The result of running the pairing loop on the two buffers. -/
structure SyncResult where
  inb : List (List Int)
  out : List (List Int)
  ws : List (List (Int × Int))
  steps : Nat
  cin : Nat
  cout : Nat
  drop : Nat
deriving Repr, DecidableEq

/-- Lines 76-89: `while inbound_buffer and outbound_buffer`: pop the head
chunk of each, truncate both to the min length, column-stack them and write
the stereo chunk.  Returns the remaining buffers, the chunks written, and the
instrumentation deltas. -/
def syncLoop : List (List Int) → List (List Int) → SyncResult
  | [], b => ⟨[], b, [], 0, 0, 0, 0⟩
  | a, [] => ⟨a, [], [], 0, 0, 0, 0⟩
  | ic :: ir, oc :: orest =>
    let m := min ic.length oc.length
    let chunk := column_stack (ic.take m) (oc.take m)
    let r := syncLoop ir orest
    ⟨r.inb, r.out, chunk :: r.ws, r.steps + 1,
      r.cin + 2 * ic.length, r.cout + 2 * oc.length,
      r.drop + (ic.length - m) + (oc.length - m)⟩

/-- Lines 93-98: flush every remaining inbound chunk paired with an all-zero
chunk of the same length on the right (outbound) channel. -/
def zeroFillIn (chunks : List (List Int)) : List (List (Int × Int)) :=
  chunks.map (fun c => column_stack c (List.replicate c.length 0))

/-- Lines 99-104: flush every remaining outbound chunk paired with an
all-zero chunk of the same length on the left (inbound) channel. -/
def zeroFillOut (chunks : List (List Int)) : List (List (Int × Int)) :=
  chunks.map (fun c => column_stack (List.replicate c.length 0) c)

/-- Lines 76-104: the pairing loop followed by the zero-fill flush
(`if inbound_buffer and not outbound_buffer: ... elif outbound_buffer and
not inbound_buffer: ...`), run after a successful append. -/
def flushState (st : SessionState) : SessionState :=
  let r := syncLoop st.inbound st.outbound
  let st1 : SessionState :=
    { st with
      inbound := r.inb, outbound := r.out, writes := st.writes ++ r.ws,
      mixSteps := st.mixSteps + r.steps,
      consumedIn := st.consumedIn + r.cin,
      consumedOut := st.consumedOut + r.cout,
      dropped := st.dropped + r.drop }
  match r.inb, r.out with
  | _ :: _, [] =>
    { st1 with inbound := [], writes := st1.writes ++ zeroFillIn r.inb }
  | [], _ :: _ =>
    { st1 with outbound := [], writes := st1.writes ++ zeroFillOut r.out }
  | _, _ => st1

/-- Lines 45-108: process one websocket message.  A media event with a
payload whose base64 decoding raises is dropped by the outer
`except Exception` handler; a media event with a valid payload is μ-law
decoded, appended to the buffer named by `track` (unknown tracks are logged
and skipped via `continue`, line 73, before the pairing loop), and the
buffers are flushed.  Non-media events are only logged. -/
def processEvent (st : SessionState) (ev : TwilioEvent) : SessionState :=
  match ev with
  | .media track payload =>
    match payload with
    | .error _ => st
    | .ok bs =>
      let samples := ulawDecode bs
      if track = "inbound" then
        flushState { st with inbound := st.inbound ++ [samples],
                             appendsIn := st.appendsIn + 1 }
      else if track = "outbound" then
        flushState { st with outbound := st.outbound ++ [samples],
                             appendsOut := st.appendsOut + 1 }
      else st
  | .other _ => st

/-- The `async for message in websocket` loop: fold over the event sequence. -/
def processEvents (st : SessionState) (evs : List TwilioEvent) : SessionState :=
  evs.foldl processEvent st

/-- The state at line 40-41 of the source: both buffers initialized empty,
nothing written, all counters zero. -/
def initState : SessionState :=
  ⟨[], [], [], 0, 0, 0, 0, 0, 0⟩

/-- The single sink write an event produces when processed from a state with
both buffers empty: a valid inbound frame is written zero-padded on the
right channel, a valid outbound frame zero-padded on the left; every other
event writes nothing. -/
def evWrite : TwilioEvent → Option (List (Int × Int))
  | .media track (.ok bs) =>
    if track = "inbound" then
      some (column_stack (ulawDecode bs) (List.replicate (ulawDecode bs).length 0))
    else if track = "outbound" then
      some (column_stack (List.replicate (ulawDecode bs).length 0) (ulawDecode bs))
    else none
  | _ => none

/-- The full sink trace of an event sequence processed from empty buffers. -/
def eventWrites (evs : List TwilioEvent) : List (List (Int × Int)) :=
  evs.filterMap evWrite

/-- An event that appends to the inbound buffer: a media event on track
`inbound` whose base64 decoding succeeds. -/
def isOkIn : TwilioEvent → Bool
  | .media track (.ok _) => track == "inbound"
  | _ => false

/-- An event that appends to the outbound buffer. -/
def isOkOut : TwilioEvent → Bool
  | .media track (.ok _) => track == "outbound"
  | _ => false

/-- The per-channel sample count of the sink write an event produces (from
empty buffers), when it produces one: the length of the decoded frame. -/
def validFrameLen : TwilioEvent → Option Nat
  | .media track (.ok bs) =>
    if track = "inbound" ∨ track = "outbound" then some bs.length else none
  | _ => none

/-- Whether every chunk in a sink trace has the same per-channel length. -/
def allSameLength : List (List (Int × Int)) → Bool
  | [] => true
  | c :: cs => cs.all (fun d => d.length == c.length)

/-! ### The handler with a fallible sink

`stream.write` can raise.  The source catches the exception in the
per-message `except Exception` handler (lines 111-112): the message being
processed is abandoned (the chunk that was popped for the failing write is
lost, chunks not yet popped stay in their buffer), the error is logged, and
the `async for` loop continues with the next message.  The variant below
threads a write-attempt counter and a failure schedule `failOn`
(attempt `n` raises iff `failOn n = true`); `writes` records only the
successful writes. -/

/-- Result of a fallible buffer-emptying loop: the chunks still in the
buffer, the chunks successfully written, the next write-attempt index, and
whether the loop completed without an exception. -/
structure FlushResult where
  remaining : List (List Int)
  ws : List (List (Int × Int))
  n : Nat
  ok : Bool
deriving Repr, DecidableEq

/-- Fallible pairing loop (lines 76-89): pops the head chunks, attempts the
write; on failure the popped chunks are lost and the exception aborts the
message.  Returns both remaining buffers via two `FlushResult`-like pieces. -/
structure FSyncResult where
  inb : List (List Int)
  out : List (List Int)
  ws : List (List (Int × Int))
  n : Nat
  ok : Bool
deriving Repr, DecidableEq

def syncLoopF (failOn : Nat → Bool) : List (List Int) → List (List Int) → Nat → FSyncResult
  | [], b, n => ⟨[], b, [], n, true⟩
  | a, [], n => ⟨a, [], [], n, true⟩
  | ic :: ir, oc :: orest, n =>
    let m := min ic.length oc.length
    let chunk := column_stack (ic.take m) (oc.take m)
    if failOn n then ⟨ir, orest, [], n + 1, false⟩
    else
      let r := syncLoopF failOn ir orest (n + 1)
      ⟨r.inb, r.out, chunk :: r.ws, r.n, r.ok⟩

/-- Fallible zero-fill flush of the inbound buffer (lines 93-98). -/
def zeroFillInF (failOn : Nat → Bool) : List (List Int) → Nat → FlushResult
  | [], n => ⟨[], [], n, true⟩
  | c :: cs, n =>
    if failOn n then ⟨cs, [], n + 1, false⟩
    else
      let r := zeroFillInF failOn cs (n + 1)
      ⟨r.remaining, column_stack c (List.replicate c.length 0) :: r.ws, r.n, r.ok⟩

/-- Fallible zero-fill flush of the outbound buffer (lines 99-104). -/
def zeroFillOutF (failOn : Nat → Bool) : List (List Int) → Nat → FlushResult
  | [], n => ⟨[], [], n, true⟩
  | c :: cs, n =>
    if failOn n then ⟨cs, [], n + 1, false⟩
    else
      let r := zeroFillOutF failOn cs (n + 1)
      ⟨r.remaining, column_stack (List.replicate c.length 0) c :: r.ws, r.n, r.ok⟩

/-- Session state for the fallible-sink variant: the two buffers, the
successful writes, and the number of write attempts so far. -/
structure FState where
  inbound : List (List Int)
  outbound : List (List Int)
  writes : List (List (Int × Int))
  wcount : Nat
deriving Repr, DecidableEq

def initFState : FState := ⟨[], [], [], 0⟩

/-- Lines 76-104 with a fallible sink: run the pairing loop; if it raised,
the message is abandoned there; otherwise run the zero-fill branch. -/
def flushStateF (failOn : Nat → Bool) (st : FState) : FState :=
  let r := syncLoopF failOn st.inbound st.outbound st.wcount
  let st1 : FState := ⟨r.inb, r.out, st.writes ++ r.ws, r.n⟩
  if r.ok then
    match r.inb, r.out with
    | _ :: _, [] =>
      let z := zeroFillInF failOn r.inb r.n
      ⟨z.remaining, [], st1.writes ++ z.ws, z.n⟩
    | [], _ :: _ =>
      let z := zeroFillOutF failOn r.out r.n
      ⟨[], z.remaining, st1.writes ++ z.ws, z.n⟩
    | _, _ => st1
  else st1

/-- Process one message with a fallible sink.  The exception a failing write
raises is caught by the per-message handler (lines 111-112): the state the
flush reached is kept and the event loop continues. -/
def processEventF (failOn : Nat → Bool) (st : FState) (ev : TwilioEvent) : FState :=
  match ev with
  | .media track payload =>
    match payload with
    | .error _ => st
    | .ok bs =>
      let samples := ulawDecode bs
      if track = "inbound" then
        flushStateF failOn ⟨st.inbound ++ [samples], st.outbound, st.writes, st.wcount⟩
      else if track = "outbound" then
        flushStateF failOn ⟨st.inbound, st.outbound ++ [samples], st.writes, st.wcount⟩
      else st
  | .other _ => st

def processEventsF (failOn : Nat → Bool) (st : FState) (evs : List TwilioEvent) : FState :=
  evs.foldl (processEventF failOn) st

/-! ### The SumMix mixing policy

The source of the repository contains only the stereo-interleave combination
(`np.column_stack`); the `SumMix` policy exists only in the specification. -/

/-- Modelled from the spec: saturating 16-bit addition — the sum clamped to
the signed 16-bit range, never wrapping past it.  No SumMix code exists in
the repository source; this follows the words of §4.3, "add the two scaled chunks
sample-by-sample using saturating addition (output sample magnitude must
never wrap past the representable range)". -/
def saturating_add16 (a b : Int) : Int :=
  max (-32768) (min 32767 (a + b))

/-- Modelled from the spec: attenuate a sample by the construction-time
scale `num / den` (a fraction, §4.3: "multiply every sample in each chunk by
`scale`"), taking the floor of the exact product.  No SumMix code exists in
the repository source. -/
def scaleSample (num den : Nat) (s : Int) : Int :=
  Int.fdiv (s * num) den

/-- Modelled from the spec: one sample of the `SumMix{scale}` policy —
attenuate both samples by the scale, then saturating-add them. -/
def sumMixSample (num den : Nat) (a b : Int) : Int :=
  saturating_add16 (scaleSample num den a) (scaleSample num den b)

/-! ### Step lemmas: processing one event from a state with empty buffers -/

theorem eventWrites_cons (ev : TwilioEvent) (evs : List TwilioEvent) :
    eventWrites (ev :: evs) = (evWrite ev).toList ++ eventWrites evs := by
  simp only [eventWrites, List.filterMap_cons]
  cases evWrite ev <;> simp

/-- Flushing a state whose inbound buffer holds exactly one chunk and whose
outbound buffer is empty: the pairing loop does not run, and the zero-fill
branch writes the chunk zero-padded on the right channel. -/
theorem flushState_single_in (st : SessionState) (s : List Int)
    (h1 : st.inbound = [s]) (h2 : st.outbound = []) :
    flushState st =
      { st with inbound := [],
                writes := st.writes ++ [column_stack s (List.replicate s.length 0)] } := by
  cases st with
  | mk inb outb w ms ci co dr ai ao =>
    simp only [SessionState.mk.injEq] at h1 h2 ⊢
    subst h1; subst h2
    simp [flushState, syncLoop, zeroFillIn]

/-- Flushing a state whose outbound buffer holds exactly one chunk and whose
inbound buffer is empty. -/
theorem flushState_single_out (st : SessionState) (s : List Int)
    (h1 : st.inbound = []) (h2 : st.outbound = [s]) :
    flushState st =
      { st with outbound := [],
                writes := st.writes ++ [column_stack (List.replicate s.length 0) s] } := by
  cases st with
  | mk inb outb w ms ci co dr ai ao =>
    simp only [SessionState.mk.injEq] at h1 h2 ⊢
    subst h1; subst h2
    simp [flushState, syncLoop, zeroFillOut]

/-- Processing one event from a state with both buffers empty: the buffers
are empty again afterwards, the sink receives exactly `evWrite ev`, the
append counters record the event, and the pairing-loop counters do not move. -/
theorem processEvent_empty (st : SessionState)
    (h1 : st.inbound = []) (h2 : st.outbound = []) (ev : TwilioEvent) :
    processEvent st ev =
      { st with
        writes := st.writes ++ (evWrite ev).toList,
        appendsIn := st.appendsIn + (if isOkIn ev then 1 else 0),
        appendsOut := st.appendsOut + (if isOkOut ev then 1 else 0) } := by
  cases ev with
  | other e =>
    cases st
    simp only [SessionState.mk.injEq] at h1 h2
    subst h1; subst h2
    simp [processEvent, evWrite, isOkIn, isOkOut]
  | media track payload =>
    cases payload with
    | error e =>
      cases st
      simp only [SessionState.mk.injEq] at h1 h2
      subst h1; subst h2
      simp [processEvent, evWrite, isOkIn, isOkOut]
    | ok bs =>
      by_cases hin : track = "inbound"
      · subst hin
        rw [processEvent]
        simp only [if_pos rfl]
        rw [flushState_single_in _ (ulawDecode bs) (by simp [h1]) (by simp [h2])]
        cases st
        simp_all [evWrite, isOkIn, isOkOut]
      · by_cases hout : track = "outbound"
        · subst hout
          rw [processEvent]
          rw [if_neg (by decide : ¬ ("outbound" = "inbound")), if_pos rfl]
          rw [flushState_single_out _ (ulawDecode bs) (by simp [h1]) (by simp [h2])]
          cases st
          simp_all [evWrite, isOkIn, isOkOut]
        · rw [processEvent]
          rw [if_neg hin, if_neg hout]
          cases st
          simp_all [evWrite, isOkIn, isOkOut]

/-- Master trace theorem: processing any event sequence from a state with
both buffers empty leaves both buffers empty, appends exactly `eventWrites
evs` to the sink, counts the appends, and never moves the pairing-loop
counters (the pairing loop body is unreachable). -/
theorem processEvents_empty_trace (evs : List TwilioEvent) (st : SessionState)
    (h1 : st.inbound = []) (h2 : st.outbound = []) :
    (processEvents st evs).inbound = [] ∧
    (processEvents st evs).outbound = [] ∧
    (processEvents st evs).writes = st.writes ++ eventWrites evs ∧
    (processEvents st evs).appendsIn = st.appendsIn + (evs.filter isOkIn).length ∧
    (processEvents st evs).appendsOut = st.appendsOut + (evs.filter isOkOut).length ∧
    (processEvents st evs).mixSteps = st.mixSteps ∧
    (processEvents st evs).consumedIn = st.consumedIn ∧
    (processEvents st evs).consumedOut = st.consumedOut ∧
    (processEvents st evs).dropped = st.dropped := by
  induction evs generalizing st with
  | nil =>
    simp [processEvents, eventWrites, h1, h2]
  | cons ev evs ih =>
    have hstep := processEvent_empty st h1 h2 ev
    have hrec := ih (processEvent st ev) (by rw [hstep]; exact h1) (by rw [hstep]; exact h2)
    simp only [processEvents, List.foldl_cons] at hrec ⊢
    rw [hstep] at hrec ⊢
    simp only [eventWrites_cons]
    refine ⟨hrec.1, hrec.2.1, ?_, ?_, ?_, ?_, ?_, ?_, ?_⟩
    · rw [hrec.2.2.1]; simp [List.append_assoc]
    · rw [hrec.2.2.2.1]
      cases hi : isOkIn ev <;> simp [List.filter_cons, hi]
      all_goals omega
    · rw [hrec.2.2.2.2.1]
      cases ho : isOkOut ev <;> simp [List.filter_cons, ho]
      all_goals omega
    · rw [hrec.2.2.2.2.2.1]
    · rw [hrec.2.2.2.2.2.2.1]
    · rw [hrec.2.2.2.2.2.2.2.1]
    · rw [hrec.2.2.2.2.2.2.2.2]

/-! ### Claim theorems -/

theorem snd_zero_of_mem_zeroFillChunk (s : List Int) (p : Int × Int)
    (hp : p ∈ column_stack s (List.replicate s.length 0)) : p.2 = 0 := by
  obtain ⟨x, y⟩ := p
  exact List.eq_of_mem_replicate (List.of_mem_zip hp).2

theorem fst_zero_of_mem_zeroFillChunk (s : List Int) (p : Int × Int)
    (hp : p ∈ column_stack (List.replicate s.length 0) s) : p.1 = 0 := by
  obtain ⟨x, y⟩ := p
  exact List.eq_of_mem_replicate (List.of_mem_zip hp).1

theorem evWrite_zero_channel (ev : TwilioEvent) (c : List (Int × Int))
    (h : evWrite ev = some c) :
    (∀ p ∈ c, p.1 = 0) ∨ (∀ p ∈ c, p.2 = 0) := by
  cases ev with
  | other e => simp [evWrite] at h
  | media track payload =>
    cases payload with
    | error e => simp [evWrite] at h
    | ok bs =>
      by_cases hin : track = "inbound"
      · subst hin
        simp only [evWrite, eq_self_iff_true, if_true, Option.some.injEq] at h
        subst h
        exact Or.inr (fun p hp => snd_zero_of_mem_zeroFillChunk _ p hp)
      · by_cases hout : track = "outbound"
        · subst hout
          simp [evWrite] at h
          subst h
          exact Or.inl (fun p hp => fst_zero_of_mem_zeroFillChunk _ p hp)
        · simp [evWrite, hin, hout] at h

/-- C1: in every execution of `handle_call` started with both track buffers
empty, every chunk written to the audio sink has an all-zero left channel or
an all-zero right channel: the per-event zero-fill flush empties the
counterpart buffer before the next event arrives, so the pairing loop body
(lines 76-89) never runs and every write is a zero-padded single-track
chunk. -/
theorem c1_every_sink_chunk_has_zero_channel (evs : List TwilioEvent)
    (c : List (Int × Int)) (hc : c ∈ (processEvents initState evs).writes) :
    (∀ p ∈ c, p.1 = 0) ∨ (∀ p ∈ c, p.2 = 0) := by
  have h := processEvents_empty_trace evs initState rfl rfl
  rw [h.2.2.1] at hc
  simp only [initState, List.nil_append] at hc
  rw [eventWrites, List.mem_filterMap] at hc
  obtain ⟨ev, _, hev⟩ := hc
  exact evWrite_zero_channel ev c hev

theorem c1_witness :
    ([((-32124 : Int), (0 : Int))]
        ∈ (processEvents initState [TwilioEvent.media "inbound" (Except.ok [0])]).writes) ∧
    ((∀ p ∈ [((-32124 : Int), (0 : Int))], p.1 = 0) ∨
     (∀ p ∈ [((-32124 : Int), (0 : Int))], p.2 = 0)) :=
  ⟨by decide,
   c1_every_sink_chunk_has_zero_channel
     [TwilioEvent.media "inbound" (Except.ok [0])] _ (by decide)⟩

/-- C2: from a state with both buffers empty, processing any single event
leaves both buffers empty again, and a valid media frame is written to the
sink (zero-padded on the missing channel) within the processing of the very
event that appended it. -/
theorem c2_buffers_empty_after_each_event (st : SessionState) (ev : TwilioEvent)
    (bs : List Nat) (h1 : st.inbound = []) (h2 : st.outbound = []) :
    ((processEvent st ev).inbound = [] ∧ (processEvent st ev).outbound = []) ∧
    (processEvent st (.media "inbound" (.ok bs))).writes
      = st.writes ++ [column_stack (ulawDecode bs) (List.replicate (ulawDecode bs).length 0)] ∧
    (processEvent st (.media "outbound" (.ok bs))).writes
      = st.writes ++ [column_stack (List.replicate (ulawDecode bs).length 0) (ulawDecode bs)] := by
  refine ⟨?_, ?_, ?_⟩
  · rw [processEvent_empty st h1 h2 ev]
    exact ⟨h1, h2⟩
  · rw [processEvent_empty st h1 h2 (.media "inbound" (.ok bs))]
    simp [evWrite]
  · rw [processEvent_empty st h1 h2 (.media "outbound" (.ok bs))]
    simp [evWrite]

theorem c2_witness :
    initState.inbound = [] ∧ initState.outbound = [] ∧
    (((processEvent initState (.other "stop")).inbound = [] ∧
      (processEvent initState (.other "stop")).outbound = []) ∧
     (processEvent initState (.media "inbound" (.ok [0]))).writes
       = initState.writes
         ++ [column_stack (ulawDecode [0]) (List.replicate (ulawDecode [0]).length 0)] ∧
     (processEvent initState (.media "outbound" (.ok [0]))).writes
       = initState.writes
         ++ [column_stack (List.replicate (ulawDecode [0]).length 0) (ulawDecode [0])]) :=
  ⟨rfl, rfl, c2_buffers_empty_after_each_event initState (.other "stop") [0] rfl rfl⟩

/-- C3: across any event sequence from empty buffers, the pairing loop of
the synchronizer consumes equal byte counts from the two buffers (both zero:
the loop body is unreachable, so the cumulative counts never differ at all,
in particular by no more than one chunk), no consumed sample is silently
discarded by the min-length truncation, and the sink trace is exactly the
zero-fill writes — every appended frame appears in an emitted chunk. -/
theorem c3_aligned_consumption_no_discard (evs : List TwilioEvent) :
    (processEvents initState evs).consumedIn = (processEvents initState evs).consumedOut ∧
    (processEvents initState evs).dropped = 0 ∧
    (processEvents initState evs).mixSteps = 0 ∧
    (processEvents initState evs).writes = eventWrites evs := by
  have h := processEvents_empty_trace evs initState rfl rfl
  refine ⟨?_, ?_, ?_, ?_⟩
  · rw [h.2.2.2.2.2.2.1, h.2.2.2.2.2.2.2.1]; rfl
  · rw [h.2.2.2.2.2.2.2.2]; rfl
  · rw [h.2.2.2.2.2.1]; rfl
  · rw [h.2.2.1]; simp [initState]

/-- C4 counterexample: a `stop` control event does not end the stream — a
media event arriving after `stop` is still decoded, appended and written to
the sink (the handler at lines 105-106 only logs non-media events). -/
theorem c4_counterexample_media_processed_after_stop :
    (processEvents initState
        [TwilioEvent.other "stop", TwilioEvent.media "inbound" (Except.ok [0])]).writes
      = [[((-32124 : Int), 0)]] ∧
    (processEvents initState
        [TwilioEvent.other "stop", TwilioEvent.media "inbound" (Except.ok [0])]).appendsIn
      = 1 := by
  exact ⟨rfl, rfl⟩

/-- C4 amended: a `stop` event is only logged — it changes nothing in the
session state, and processing after a `stop` is identical to processing
without it; the zero-fill drain runs after every media event (see the C2
theorem), not once on `stop`. -/
theorem c4_amended_stop_is_log_only (st : SessionState) (evs : List TwilioEvent) :
    processEvent st (.other "stop") = st ∧
    processEvents st (.other "stop" :: evs) = processEvents st evs :=
  ⟨rfl, rfl⟩

theorem eventWrites_lengths (evs : List TwilioEvent) :
    (eventWrites evs).map List.length = evs.filterMap validFrameLen := by
  induction evs with
  | nil => rfl
  | cons ev evs ih =>
    rw [eventWrites_cons, List.filterMap_cons, List.map_append, ih]
    cases ev with
    | other e => simp [evWrite, validFrameLen]
    | media track payload =>
      cases payload with
      | error e => simp [evWrite, validFrameLen]
      | ok bs =>
        by_cases hin : track = "inbound"
        · subst hin
          simp [evWrite, validFrameLen, column_stack, ulawDecode]
        · by_cases hout : track = "outbound"
          · subst hout
            simp [evWrite, validFrameLen, column_stack, ulawDecode, hin]
          · simp [evWrite, validFrameLen, hin, hout]

/-- C5 counterexample: there is no configured chunk size — two valid inbound
frames of 1 and 2 bytes produce sink chunks of per-channel lengths 1 and 2,
both zero-padded and both emitted while the stream is still delivering media
events (no shutdown is involved at all). -/
theorem c5_counterexample_variable_chunk_sizes :
    ((processEvents initState
        [TwilioEvent.media "inbound" (Except.ok [0]),
         TwilioEvent.media "inbound" (Except.ok [0, 0])]).writes.map List.length
      = [1, 2]) ∧
    allSameLength (processEvents initState
        [TwilioEvent.media "inbound" (Except.ok [0]),
         TwilioEvent.media "inbound" (Except.ok [0, 0])]).writes = false := by
  exact ⟨rfl, rfl⟩

/-- C5 amended: the per-channel sample count of each emitted chunk equals the
byte count of the decoded frame that triggered it — there is no configured
chunk size, chunk lengths follow the (variable) frame lengths, and the
zero-padded chunks are emitted during normal operation, one per valid media
event. -/
theorem c5_amended_chunk_lengths_follow_frames (evs : List TwilioEvent) :
    (processEvents initState evs).writes.map List.length = evs.filterMap validFrameLen := by
  have h := processEvents_empty_trace evs initState rfl rfl
  rw [h.2.2.1]
  simp only [initState, List.nil_append]
  exact eventWrites_lengths evs

/-- C7 counterexample: an empty payload is not dropped — `b64decode` returns
the empty byte string, `ulaw2lin` decodes it to an empty sample array, and
the handler appends it to the inbound buffer (append counter 1) and flushes
it as an (empty) sink write, instead of logging and dropping the frame. -/
theorem c7_counterexample_empty_payload_appended :
    (processEvents initState [TwilioEvent.media "inbound" (Except.ok [])]).appendsIn = 1 ∧
    (processEvents initState [TwilioEvent.media "inbound" (Except.ok [])]).writes = [[]] := by
  exact ⟨rfl, rfl⟩

/-- C7 amended: frames whose base64 decoding raises are dropped without being
appended to either buffer and the session keeps processing (the append
counters count exactly the valid media events, so one malformed frame amid N
valid frames on one track yields exactly N appends on that track); an empty
payload, however, is not dropped — it is appended as an empty frame and
flushed as an empty chunk. -/
theorem c7_amended_malformed_dropped_valid_kept (evs : List TwilioEvent) :
    (processEvents initState evs).appendsIn = (evs.filter isOkIn).length ∧
    (processEvents initState evs).appendsOut = (evs.filter isOkOut).length := by
  have h := processEvents_empty_trace evs initState rfl rfl
  refine ⟨?_, ?_⟩
  · rw [h.2.2.2.1]; simp [initState]
  · rw [h.2.2.2.2.1]; simp [initState]

/-- C8: for a media event whose payload base64-decodes to `k` bytes, the
μ-law decoder produces exactly `k` 16-bit samples (one per input byte), and
the handler appends that sample buffer unchanged to the buffer named by the
`track` field of the event before flushing. -/
theorem c8_decode_length_and_append (st : SessionState) (bs : List Nat) :
    (ulawDecode bs).length = bs.length ∧
    processEvent st (.media "inbound" (.ok bs))
      = flushState { st with inbound := st.inbound ++ [ulawDecode bs],
                             appendsIn := st.appendsIn + 1 } ∧
    processEvent st (.media "outbound" (.ok bs))
      = flushState { st with outbound := st.outbound ++ [ulawDecode bs],
                             appendsOut := st.appendsOut + 1 } := by
  refine ⟨by simp [ulawDecode], rfl, ?_⟩
  rw [processEvent]
  rw [if_neg (by decide : ¬ ("outbound" = "inbound")), if_pos rfl]

theorem interleaveStereo_column_stack (a b : List Int) (h : a.length = b.length) :
    interleaveStereo (column_stack a b) = interleaveSpec a b := by
  induction a generalizing b with
  | nil =>
    cases b with
    | nil => rfl
    | cons y ys => simp at h
  | cons x xs ih =>
    cases b with
    | nil => simp at h
    | cons y ys =>
      simp only [column_stack, List.zip_cons_cons, interleaveStereo,
        List.flatMap_cons, interleaveSpec] at *
      simp only [List.cons_append, List.nil_append, List.cons.injEq, true_and]
      exact ih ys (by simpa using h)

theorem interleaveSpec_length (a b : List Int) (h : a.length = b.length) :
    (interleaveSpec a b).length = 2 * a.length := by
  induction a generalizing b with
  | nil =>
    cases b with
    | nil => rfl
    | cons y ys => simp at h
  | cons x xs ih =>
    cases b with
    | nil => simp at h
    | cons y ys =>
      simp only [interleaveSpec, List.length_cons]
      rw [ih ys (by simpa using h)]
      omega

/-- C9: combining two aligned equal-length chunks with
`np.column_stack((inbound_chunk, outbound_chunk))` places the inbound chunk
in column 0 (the left channel) and the outbound chunk in column 1 (the
right channel); the frame handed to `stream.write` is, in memory order, the
sample-for-sample interleaving of the two chunks, twice as long, channels
alternating. -/
theorem c9_stereo_interleave (a b : List Int) (h : a.length = b.length) :
    (column_stack a b).map Prod.fst = a ∧
    (column_stack a b).map Prod.snd = b ∧
    interleaveStereo (column_stack a b) = interleaveSpec a b ∧
    (interleaveStereo (column_stack a b)).length = 2 * a.length := by
  refine ⟨List.map_fst_zip a b h.le, List.map_snd_zip a b h.ge, ?_, ?_⟩
  · exact interleaveStereo_column_stack a b h
  · rw [interleaveStereo_column_stack a b h]
    exact interleaveSpec_length a b h

theorem processEventF_empty (failOn : Nat → Bool) (st : FState)
    (h1 : st.inbound = []) (h2 : st.outbound = []) (ev : TwilioEvent) :
    (processEventF failOn st ev).inbound = [] ∧
    (processEventF failOn st ev).outbound = [] ∧
    (processEventF failOn st ev).wcount
      = st.wcount + (if isOkIn ev || isOkOut ev then 1 else 0) := by
  cases ev with
  | other e =>
    cases st
    simp_all [processEventF, isOkIn, isOkOut]
  | media track payload =>
    cases payload with
    | error e =>
      cases st
      simp_all [processEventF, isOkIn, isOkOut]
    | ok bs =>
      cases st with
      | mk inb outb w n =>
        simp only [FState.mk.injEq] at h1 h2
        subst h1; subst h2
        by_cases hin : track = "inbound"
        · subst hin
          cases hf : failOn n <;>
            simp [processEventF, flushStateF, syncLoopF, zeroFillInF, hf,
              isOkIn, isOkOut]
        · by_cases hout : track = "outbound"
          · subst hout
            cases hf : failOn n <;>
              simp [processEventF, flushStateF, syncLoopF, zeroFillOutF, hf,
                isOkIn, isOkOut, hin]
          · simp [processEventF, isOkIn, isOkOut, hin, hout]

theorem processEventsF_empty_trace (failOn : Nat → Bool) (evs : List TwilioEvent)
    (st : FState) (h1 : st.inbound = []) (h2 : st.outbound = []) :
    (processEventsF failOn st evs).inbound = [] ∧
    (processEventsF failOn st evs).outbound = [] ∧
    (processEventsF failOn st evs).wcount
      = st.wcount + (evs.filter (fun ev => isOkIn ev || isOkOut ev)).length := by
  induction evs generalizing st with
  | nil => simp [processEventsF, h1, h2]
  | cons ev evs ih =>
    have hstep := processEventF_empty failOn st h1 h2 ev
    have hrec := ih (processEventF failOn st ev) hstep.1 hstep.2.1
    simp only [processEventsF, List.foldl_cons] at hrec ⊢
    refine ⟨hrec.1, hrec.2.1, ?_⟩
    rw [hrec.2.2, hstep.2.2]
    cases hv : (isOkIn ev || isOkOut ev) <;> simp [List.filter_cons, hv]
    all_goals omega

/-- C6 counterexample: a sink write failure is not fatal.  With a sink whose
first write raises (`failOn 0`), the chunk of the first media event is lost,
but the second media event is still decoded, appended, flushed and
successfully written — the session keeps processing media events after the
failed write (the exception is caught at lines 111-112 and the event loop
continues). -/
theorem c6_counterexample_session_survives_write_failure :
    (processEventsF (fun n => n == 0) initFState
        [TwilioEvent.media "inbound" (Except.ok [0]),
         TwilioEvent.media "inbound" (Except.ok [0])]).writes
      = [[((-32124 : Int), 0)]] ∧
    (processEventsF (fun n => n == 0) initFState
        [TwilioEvent.media "inbound" (Except.ok [0]),
         TwilioEvent.media "inbound" (Except.ok [0])]).wcount = 2 :=
  ⟨rfl, rfl⟩

/-- C6 amended: a sink write failure is caught by the per-message exception
handler and is not retried (the failed chunk is lost), but the session does
not terminate: whatever the failure schedule, both buffers are empty again
after every event and every valid media event still triggers exactly one
write attempt — processing continues exactly as without the failure. -/
theorem c6_amended_write_failure_not_fatal (failOn : Nat → Bool)
    (evs : List TwilioEvent) :
    (processEventsF failOn initFState evs).inbound = [] ∧
    (processEventsF failOn initFState evs).outbound = [] ∧
    (processEventsF failOn initFState evs).wcount
      = (evs.filter (fun ev => isOkIn ev || isOkOut ev)).length := by
  have h := processEventsF_empty_trace failOn evs initFState rfl rfl
  exact ⟨h.1, h.2.1, by rw [h.2.2]; simp [initFState]⟩

theorem scaleSample_bounds (num den : Nat) (s : Int)
    (hden : 0 < den) (hscale : 2 * num ≤ den)
    (h1 : -32768 ≤ s) (h2 : s ≤ 32767) :
    -16384 ≤ scaleSample num den s ∧ scaleSample num den s ≤ 16383 := by
  have hdz : (0 : Int) < (den : Int) := by exact_mod_cast hden
  have hnum : (0 : Int) ≤ (num : Int) := Int.natCast_nonneg num
  have hd2 : 2 * (num : Int) ≤ (den : Int) := by exact_mod_cast hscale
  rw [scaleSample, Int.fdiv_eq_ediv _ hdz.le]
  constructor
  · rw [Int.le_ediv_iff_mul_le hdz]
    have k1 : (-32768 : Int) * num ≤ s * num :=
      mul_le_mul_of_nonneg_right h1 hnum
    linarith
  · by_contra hc
    push_neg at hc
    have h16 : (16383 : Int) + 1 ≤ s * num / den := Int.add_one_le_iff.mpr hc
    rw [Int.le_ediv_iff_mul_le hdz] at h16
    have k2 : s * num ≤ (32767 : Int) * num :=
      mul_le_mul_of_nonneg_right h2 hnum
    linarith

/-- C10 (modelled from the spec — the repository source contains no SumMix
code): for any construction-time scale `num / den` with `2 * num ≤ den`
(the clipping-prevention choice: the worst-case sum of both attenuated
extremes stays representable) and any valid 16-bit samples `a`, `b`, the
mixed sample `saturating_add(scale·a, scale·b)` lies within the signed
16-bit range, and the saturating addition never actually clamps or wraps —
it coincides with the exact sum of the two attenuated samples. -/
theorem c10_summix_no_clip (num den : Nat) (a b : Int)
    (hden : 0 < den) (hscale : 2 * num ≤ den)
    (ha1 : -32768 ≤ a) (ha2 : a ≤ 32767) (hb1 : -32768 ≤ b) (hb2 : b ≤ 32767) :
    -32768 ≤ sumMixSample num den a b ∧ sumMixSample num den a b ≤ 32767 ∧
    sumMixSample num den a b = scaleSample num den a + scaleSample num den b := by
  obtain ⟨la, ua⟩ := scaleSample_bounds num den a hden hscale ha1 ha2
  obtain ⟨lb, ub⟩ := scaleSample_bounds num den b hden hscale hb1 hb2
  have hsum1 : -32768 ≤ scaleSample num den a + scaleSample num den b := by linarith
  have heq : sumMixSample num den a b
      = scaleSample num den a + scaleSample num den b := by
    rw [sumMixSample, saturating_add16]
    rw [min_eq_right (by linarith), max_eq_right hsum1]
  refine ⟨by rw [heq]; linarith, by rw [heq]; linarith, heq⟩

theorem c10_witness :
    ((0 : Nat) < 2 ∧ 2 * 1 ≤ 2 ∧ (-32768 : Int) ≤ -32768 ∧
      (-32768 : Int) ≤ 32767 ∧ (-32768 : Int) ≤ 32767 ∧ (32767 : Int) ≤ 32767) ∧
    (-32768 ≤ sumMixSample 1 2 (-32768) 32767 ∧
      sumMixSample 1 2 (-32768) 32767 ≤ 32767 ∧
      sumMixSample 1 2 (-32768) 32767
        = scaleSample 1 2 (-32768) + scaleSample 1 2 32767) :=
  ⟨⟨by decide, by decide, by decide, by decide, by decide, by decide⟩,
   c10_summix_no_clip 1 2 (-32768) 32767 (by decide) (by decide)
     (by decide) (by decide) (by decide) (by decide)⟩

theorem c9_witness :
    ([10, 20, 30, 40] : List Int).length = ([1, 2, 3, 4] : List Int).length ∧
    interleaveStereo (column_stack [10, 20, 30, 40] [1, 2, 3, 4])
      = [10, 1, 20, 2, 30, 3, 40, 4] :=
  ⟨rfl, ((c9_stereo_interleave [10, 20, 30, 40] [1, 2, 3, 4] rfl).2.2.1).trans rfl⟩

end TwilioServer
